import Mathlib

/-!
Shallow embedding of the dytox-har rehearsal subsystem (`rehearsal.py`) and the
continual-training orchestrator (`trainer.py`).

Feature vectors are modelled as lists of rationals (`Vec`), matrices as lists of
rows (`Mat`).  Python's insertion-ordered `dict` is modelled as an association
list with first-occurrence overwrite (`dict_insert`).  Fallible numpy / Python
operations return `Except Err`:
  * `np.concatenate` of an empty list raises `ValueError`;
  * boolean-mask indexing with a mask whose length differs from the array's
    first dimension raises `IndexError`;
  * calling a numeric numpy API with a string count raises `TypeError`
    (relevant because `GaussianDistribution.__init__` mis-binds its `path`
    argument into the `num_samples_per_class` slot of the base constructor);
  * instantiating a class that still has abstract methods raises `TypeError`.
External collaborators (sklearn's EM fitting, numpy's random sampling) are
passed in as explicit oracle functions; everything the repository itself
computes is embedded as executable Lean functions.
-/

/-- Feature vector: one row of a numpy feature array, entries as rationals. -/
abbrev Vec := List ℚ

/-- Matrix: a list of rows. -/
abbrev Mat := List (List ℚ)

/-- Python run-time errors raised by the code paths modelled here. -/
inductive Err where
  | indexError
  | valueError
  | typeError
  | attributeError
  | fileNotFoundError
deriving DecidableEq, Repr

/-- A Python value that is either an integer or a string.  The base
`Rehearsal.__init__` stores whatever is passed into the
`num_samples_per_class` slot, and `GaussianDistribution.__init__` passes its
`path` string there, so the slot must be able to hold both. -/
inductive PyVal where
  | int (n : ℕ)
  | str (s : String)
deriving DecidableEq, Repr

/-- Using a `PyVal` where numpy expects an integer count: a string raises
`TypeError`. -/
def PyVal.asInt : PyVal → Except Err ℕ
  | .int n => .ok n
  | .str _ => .error .typeError

/-- Python `dict` assignment `d[k] = v`: overwrite in place if the key exists
(keeping its insertion position), otherwise append at the end. -/
def dict_insert {κ β : Type} [DecidableEq κ] : List (κ × β) → κ → β → List (κ × β)
  | [], k, v => [(k, v)]
  | p :: rest, k, v => if p.1 = k then (k, v) :: rest else p :: dict_insert rest k v

/-- Insert into a sorted list, keeping it sorted (helper for `np_unique`). -/
def insertSorted (x : ℚ) : List ℚ → List ℚ
  | [] => [x]
  | y :: ys => if x ≤ y then x :: y :: ys else y :: insertSorted x ys

/-- Insertion sort over rationals (helper for `np_unique`). -/
def sortQ (l : List ℚ) : List ℚ := l.foldr insertSorted []

/-- Model of `np.unique`: the sorted list of distinct values. -/
def np_unique (l : List ℚ) : List ℚ := (sortQ l).dedup

/-- Model of `np.concatenate`: joins a nonempty list of arrays; an empty list
of arrays raises `ValueError` ("need at least one array to concatenate"). -/
def np_concatenate {β : Type} (xs : List (List β)) : Except Err (List β) :=
  match xs with
  | [] => .error .valueError
  | _ => .ok xs.flatten

/-- Model of `features[labels == class_id]`: boolean-mask row selection.  numpy
raises `IndexError` when the boolean mask's length differs from the array's
first dimension. -/
def bool_index (features : List Vec) (labels : List ℚ) (c : ℚ) : Except Err (List Vec) :=
  if labels.length = features.length then
    .ok (((features.zip labels).filter (fun p => decide (p.2 = c))).map Prod.fst)
  else .error .indexError

/-- Elementwise vector addition (helper for `np_mean`). -/
def vec_add (a b : Vec) : Vec := List.zipWith (· + ·) a b

/-- Model of `np.mean(class_features, axis=0)`: the columnwise mean. -/
def np_mean (f : List Vec) : Vec :=
  match f with
  | [] => []
  | x :: xs => (xs.foldl vec_add x).map (fun a => a / ((xs.length + 1 : ℕ) : ℚ))

/-- Model of `np.cov(class_features, rowvar=False)` with the default `ddof=1`:
the sample covariance matrix of the rows.  (For fewer than two rows numpy
emits NaNs with a warning; no theorem below uses that regime.) -/
def np_cov (f : List Vec) : Mat :=
  let mu := np_mean f
  let centered := f.map (fun r => List.zipWith (· - ·) r mu)
  let d := mu.length
  (List.range d).map (fun i => (List.range d).map (fun j =>
    (centered.foldl (fun acc r => acc + r.getD i 0 * r.getD j 0) 0) / ((f.length : ℚ) - 1)))

/-- Model of `os.path.join(path, data_set, 'rehearsal_data.pkl')`. -/
def os_path_join (a b c : String) : String := a ++ "/" ++ b ++ "/" ++ c

/-- State of the abstract `Rehearsal` base class: the insertion-ordered
`rehearsal` dict mapping class ids to the variant's distribution records,
the `num_samples_per_class` slot, the three timing dicts and the save path. -/
structure Rehearsal (α : Type) where
  rehearsal : List (ℚ × α)
  num_samples_per_class : PyVal
  task_creation_time : List (ℕ × ℚ)
  task_creation_time_wall : List (ℕ × ℚ)
  class_creation_time : List (ℚ × ℚ)
  save_path : String
deriving DecidableEq, Repr

/-- Body of `Rehearsal.__init__(self, data_set, num_samples_per_class,
path='saves')`: empty dicts and the save path derived from `path` and
`data_set`. -/
def Rehearsal.init (α : Type) (data_set : String) (num_samples_per_class : PyVal)
    (path : String) : Rehearsal α :=
  { rehearsal := []
    num_samples_per_class := num_samples_per_class
    task_creation_time := []
    task_creation_time_wall := []
    class_creation_time := []
    save_path := os_path_join path data_set "rehearsal_data.pkl" }

/-- The `new_task_id` property: `len(self.task_creation_time)`. -/
def Rehearsal.new_task_id {α : Type} (s : Rehearsal α) : ℕ :=
  s.task_creation_time.length

/-- The per-class loop of `Rehearsal.add_task`: for each class id produced by
`np.unique`, select its rows by boolean mask, call the variant's `add_class`,
and record the per-class timing.  `addC` is the dynamically dispatched
`add_class`; `class_dt` supplies the measured per-class duration (timing
values are ambient inputs of the model). -/
def Rehearsal.add_task_classes {α : Type} (addC : Rehearsal α → ℚ → List Vec → Rehearsal α)
    (features : List Vec) (labels : List ℚ) (class_dt : ℚ → ℚ) :
    List ℚ → Rehearsal α → Except Err (Rehearsal α)
  | [], st => .ok st
  | c :: cs, st => do
      let cf ← bool_index features labels c
      let st2 := addC st c cf
      let st3 := { st2 with class_creation_time := dict_insert st2.class_creation_time c (class_dt c) }
      Rehearsal.add_task_classes addC features labels class_dt cs st3

/-- Model of `Rehearsal.add_task`: loop over `np.unique(labels)`, then record
the task's processing-time duration under `self.new_task_id`, then record the
wall-clock duration under `self.new_task_id` — the latter is re-evaluated
after the first timing dict has grown.  `task_dt` / `task_dt_wall` are the
measured durations. -/
def Rehearsal.add_task {α : Type} (addC : Rehearsal α → ℚ → List Vec → Rehearsal α)
    (st : Rehearsal α) (features : List Vec) (labels : List ℚ)
    (task_dt task_dt_wall : ℚ) (class_dt : ℚ → ℚ) : Except Err (Rehearsal α) := do
  let s2 ← Rehearsal.add_task_classes addC features labels class_dt (np_unique labels) st
  let s3 := { s2 with task_creation_time := dict_insert s2.task_creation_time s2.new_task_id task_dt }
  .ok { s3 with task_creation_time_wall := dict_insert s3.task_creation_time_wall s3.new_task_id task_dt_wall }

/-- Record stored by the Gaussian variant: `(mean, covariance)`. -/
abbrev GaussRecord := Vec × Mat

/-- `GaussianDistribution.add_class`: store the sample mean and covariance of
the class's rows under the class id.  There is no degeneracy check: a
singular covariance is stored like any other. -/
def GaussianDistribution.add_class (st : Rehearsal GaussRecord) (class_id : ℚ)
    (class_features : List Vec) : Rehearsal GaussRecord :=
  { st with rehearsal := dict_insert st.rehearsal class_id (np_mean class_features, np_cov class_features) }

/-- Sequential `Except`-valued map used to model the generation loops. -/
def exceptMap {β γ : Type} (f : β → Except Err γ) : List β → Except Err (List γ)
  | [] => .ok []
  | x :: xs => do
      let y ← f x
      let ys ← exceptMap f xs
      .ok (y :: ys)

/-- `GaussianDistribution.generate_rehearsal_data`: for every stored class, in
dict insertion order, draw `num_samples_per_class` rows from
`np.random.multivariate_normal(mean, cov, n)` (the drawing itself is the
external `sample` oracle) and label them with the class id; finally
`np.concatenate` the feature blocks and the label blocks. -/
def GaussianDistribution.generate_rehearsal_data
    (sample : Vec → Mat → ℕ → List Vec) (st : Rehearsal GaussRecord) :
    Except Err (List Vec × List ℚ) := do
  let blocks ← exceptMap (fun (p : ℚ × GaussRecord) => do
      let n ← st.num_samples_per_class.asInt
      .ok (sample p.2.1 p.2.2 n, List.replicate n p.1)) st.rehearsal
  let fs ← np_concatenate (blocks.map Prod.fst)
  let ls ← np_concatenate (blocks.map Prod.snd)
  .ok (fs, ls)

/-- Parameters of one fitted `sklearn.mixture.GaussianMixture`: the selected
component count together with the fitted per-component (weight, mean,
covariance) triples as produced by the external EM fit. -/
structure Gmm where
  n_components : ℕ
  params : List (ℚ × Vec × Mat)
deriving DecidableEq, Repr

/-- Record stored by the mixture variant: `best_gmm`, which is `None` when no
candidate was ever compared (empty `components_range`). -/
abbrev GmmRecord := Option Gmm

/-- The candidate loop of `GaussianMixtureModel.add_class`: walk
`components_range` keeping `best_gmm, best_score`, replacing the best only on
a strictly lower BIC (`if bic < best_score`), starting from
`None, np.inf`. -/
def gmmSelect (bicv : ℕ → ℚ) (fitv : ℕ → Gmm) :
    List ℕ → Option (Gmm × ℚ) → Option (Gmm × ℚ)
  | [], best => best
  | k :: rest, best =>
      match best with
      | none => gmmSelect bicv fitv rest (some (fitv k, bicv k))
      | some (bg, bs) =>
          if bicv k < bs then gmmSelect bicv fitv rest (some (fitv k, bicv k))
          else gmmSelect bicv fitv rest (some (bg, bs))

/-- `GaussianMixtureModel.add_class`: fit one candidate per entry of
`components_range` (via the external `fit` / `bic` oracles, seeded with
`random_state=seed`), keep the one with the lowest BIC (strict comparison, so
the earliest candidate wins ties), and store it under the class id. -/
def GaussianMixtureModel.add_class
    (fit : Option ℕ → ℕ → List Vec → List (ℚ × Vec × Mat))
    (bic : Option ℕ → ℕ → List Vec → ℚ)
    (components_range : List ℕ) (seed : Option ℕ)
    (st : Rehearsal GmmRecord) (class_id : ℚ) (class_features : List Vec) :
    Rehearsal GmmRecord :=
  let best := gmmSelect (fun k => bic seed k class_features)
      (fun k => ⟨k, fit seed k class_features⟩) components_range none
  { st with rehearsal := dict_insert st.rehearsal class_id (best.map Prod.fst) }

/-- `GaussianMixtureModel.generate_rehearsal_data`: for every stored class, in
dict insertion order, call `gmm.sample(num_samples_per_class)` (attribute
access on a `None` record raises `AttributeError`) and label the drawn rows
with the class id; finally `np.concatenate` both block lists. -/
def GaussianMixtureModel.generate_rehearsal_data
    (sample : Gmm → ℕ → List Vec) (st : Rehearsal GmmRecord) :
    Except Err (List Vec × List ℚ) := do
  let blocks ← exceptMap (fun (p : ℚ × GmmRecord) =>
      match p.2 with
      | none => .error Err.attributeError
      | some g => do
          let n ← st.num_samples_per_class.asInt
          .ok (sample g n, List.replicate n p.1)) st.rehearsal
  let fs ← np_concatenate (blocks.map Prod.fst)
  let ls ← np_concatenate (blocks.map Prod.snd)
  .ok (fs, ls)

/-- In-memory state of a `GaussianDistribution` instance: the inherited base
state plus the two (never again used) lists set by its `__init__`. -/
structure GaussianDistribution extends Rehearsal GaussRecord where
  class_means : List Vec
  class_covariances : List Mat
deriving DecidableEq, Repr

/-- `GaussianDistribution.__init__(self, data_set, path='saves', **kwargs)`:
calls `super().__init__(data_set, path)` — the supplied `path` is bound
positionally to the base constructor's `num_samples_per_class` slot, and the
base `path` keeps its default `'saves'`. -/
def GaussianDistribution.init (data_set : String) (path : String) : GaussianDistribution :=
  { toRehearsal := Rehearsal.init GaussRecord data_set (PyVal.str path) "saves"
    class_means := []
    class_covariances := [] }

/-- In-memory state of a `GaussianMixtureModel` instance: the inherited base
state plus `components_range` and `seed`. -/
structure GaussianMixtureModel extends Rehearsal GmmRecord where
  components_range : List ℕ
  seed : Option ℕ
deriving DecidableEq, Repr

/-- `GaussianMixtureModel.__init__(self, data_set, num_samples_per_class=10,
components_range=[2,3,4], seed=None, path='saves', **kwargs)`: forwards
`data_set`, `num_samples_per_class` and `path` to the base constructor in the
correct slots. -/
def GaussianMixtureModel.init (data_set : String) (num_samples_per_class : ℕ)
    (components_range : List ℕ) (seed : Option ℕ) (path : String) : GaussianMixtureModel :=
  { toRehearsal := Rehearsal.init GmmRecord data_set (PyVal.int num_samples_per_class) path
    components_range := components_range
    seed := seed }

/-- File system for the persistence layer: file path to pickled `rehearsal`
dict (one serialized object tree per file). -/
def FS (α : Type) := List (String × List (ℚ × α))

/-- Writing a file: overwrite the file at the path, or create it. -/
def fs_write {α : Type} (fs : FS α) (path : String) (blob : List (ℚ × α)) : FS α :=
  dict_insert fs path blob

/-- Reading a file: `FileNotFoundError` when the path does not exist. -/
def fs_read {α : Type} (fs : FS α) (path : String) : Except Err (List (ℚ × α)) :=
  match fs.find? (fun p => decide (p.1 = path)) with
  | some p => .ok p.2
  | none => .error .fileNotFoundError

/-- `Rehearsal.save`: `pickle.dump(self.rehearsal, file)` at `self.save_path`. -/
def Rehearsal.save {α : Type} (st : Rehearsal α) (fs : FS α) : FS α :=
  fs_write fs st.save_path st.rehearsal

/-- `Rehearsal.load`: `self.rehearsal = pickle.load(file)` from
`self.save_path`; only the `rehearsal` dict is replaced. -/
def Rehearsal.load {α : Type} (st : Rehearsal α) (fs : FS α) : Except Err (Rehearsal α) := do
  let r ← fs_read fs st.save_path
  .ok { st with rehearsal := r }

/-- Names of the methods of the abstract base class `Rehearsal` that carry
`@abstractmethod` and are not overridden on the base class itself. -/
def rehearsal_abstract_methods : List String := ["add_class", "generate_rehearsal_data"]

/-- The configuration surface read by `Trainer.__init__`. -/
structure Args where
  data_set : String
  save_dir : String
  n_epochs : ℕ
  base_increment : ℕ
  increment : ℕ
  features : ℕ
  batch_size : ℕ
  patch_size : ℕ
  embed_dim : ℕ
  optimiser : String
  learning_rate : ℚ
  momentum : ℚ
  weight_decay : ℚ
  save_model : Bool
deriving DecidableEq, Repr

/-- Construction record of the external DyTox model collaborator. -/
structure DyTox where
  base_increment : ℕ
  features : ℕ
  batch_size : ℕ
  patch_size : ℕ
  embed_dim : ℕ
deriving DecidableEq, Repr

/-- The fields of a constructed `Trainer` relevant to this model. -/
structure Trainer where
  model : DyTox
  rehearsal : Rehearsal Unit
  n_epochs : ℕ
deriving Repr

/-- Calling the class object `Rehearsal(data_set, nspc_slot, path)`.  Python's
`ABCMeta` refuses to instantiate a class whose set of abstract methods is
nonempty, raising `TypeError` before `__init__` runs. -/
def Rehearsal.instantiate (α : Type) (data_set : String) (nspc_slot : PyVal)
    (path : String) : Except Err (Rehearsal α) :=
  if rehearsal_abstract_methods.isEmpty then
    .ok (Rehearsal.init α data_set nspc_slot path)
  else .error .typeError

/-- `Trainer.__init__`: builds the DyTox model from the args, then evaluates
`Rehearsal(args.data_set, args.save_dir)` — a direct instantiation of the
abstract base class, with `args.save_dir` bound positionally to the
`num_samples_per_class` slot and `path` left at its default `'saves'`. -/
def Trainer.init (args : Args) : Except Err Trainer := do
  let model : DyTox :=
    { base_increment := args.base_increment
      features := args.features
      batch_size := args.batch_size
      patch_size := args.patch_size
      embed_dim := args.embed_dim }
  let reh ← Rehearsal.instantiate Unit args.data_set (PyVal.str args.save_dir) "saves"
  .ok { model := model, rehearsal := reh, n_epochs := args.n_epochs }

/-- Training data of one task: the `'x'` feature rows and `'y'` labels of its
`'trn'` split. -/
structure TaskData where
  x : List Vec
  y : List ℚ
deriving DecidableEq, Repr

/-- One iteration of the task loop in `Trainer.train`, for task `k`, given the
current store and the current value of `self.data[k]['trn']`.  Task `0`
registers its data directly.  Task `k > 0` first generates synthetic
rehearsal data from the store as it stands, concatenates the task's real rows
with the synthetic rows into the augmented set, registers the task's real
(unaugmented) data into the store, and replaces the task's stored data with
the augmented set.  `gen` is the store's generation entrypoint (the method the
source invokes as `generate_data`), `addC` its `add_class`. -/
def Trainer.train_step {α : Type} (addC : Rehearsal α → ℚ → List Vec → Rehearsal α)
    (gen : Rehearsal α → Except Err (List Vec × List ℚ))
    (k : ℕ) (st : Rehearsal α) (td : TaskData) :
    Except Err (Rehearsal α × TaskData) :=
  if k = 0 then do
    let st2 ← Rehearsal.add_task addC st td.x td.y 0 0 (fun _ => 0)
    .ok (st2, td)
  else do
    let rl ← gen st
    let augmented_data := td.x ++ rl.1
    let augmented_labels := td.y ++ rl.2
    let st2 ← Rehearsal.add_task addC st td.x td.y 0 0 (fun _ => 0)
    .ok (st2, ⟨augmented_data, augmented_labels⟩)

/-- The task loop of `Trainer.train` after `k` iterations: the store together
with `self.data` (in which tasks processed with `task_id > 0` have been
replaced by their augmented sets). -/
def Trainer.train_loop {α : Type} (addC : Rehearsal α → ℚ → List Vec → Rehearsal α)
    (gen : Rehearsal α → Except Err (List Vec × List ℚ))
    (s0 : Rehearsal α) (tasks : List TaskData) :
    ℕ → Except Err (Rehearsal α × List TaskData)
  | 0 => .ok (s0, tasks)
  | k + 1 => do
      let sd ← Trainer.train_loop addC gen s0 tasks k
      let td := sd.2.getD k ⟨[], []⟩
      let r ← Trainer.train_step addC gen k sd.1 td
      .ok (r.1, sd.2.set k r.2)

/-! ### Concrete fixtures: oracle instantiations and small stores used by
closed theorems.  The oracles stand for the external collaborators (sklearn
EM fitting, numpy random sampling); their values are irrelevant to the
properties proved, they only make the statements closed and computable. -/

/-- Trivial EM-fit oracle: every candidate fits to an empty parameter list. -/
def fit0 : Option ℕ → ℕ → List Vec → List (ℚ × Vec × Mat) := fun _ _ _ => []

/-- Trivial BIC oracle: every candidate scores 0. -/
def bic0 : Option ℕ → ℕ → List Vec → ℚ := fun _ _ _ => 0

/-- Deterministic stand-in for `np.random.multivariate_normal`: `n` copies of
the mean (it has the shape `(n, len(mean))` numpy guarantees). -/
def sample_gauss0 : Vec → Mat → ℕ → List Vec := fun mean _ n => List.replicate n mean

/-- Deterministic stand-in for `GaussianMixture.sample`: `n` copies of a fixed
two-dimensional row. -/
def sample_gmm0 : Gmm → ℕ → List Vec := fun _ n => List.replicate n [0, 0]

/-- A Gaussian-variant base state holding two two-dimensional classes. -/
def gstore1 : Rehearsal GaussRecord :=
  { Rehearsal.init GaussRecord "uci" (PyVal.int 3) "saves" with
    rehearsal := [(0, ([0, 0], [[1, 0], [0, 1]])), (1, ([1, 1], [[1, 0], [0, 1]]))] }

/-- A mixture-variant base state holding one fitted class. -/
def mstore1 : Rehearsal GmmRecord :=
  { Rehearsal.init GmmRecord "uci" (PyVal.int 3) "saves" with
    rehearsal := [(0, some ⟨2, []⟩)] }

/-- The Gaussian generation entrypoint instantiated with the fixture sampler
(the store interface the trainer loop dispatches to). -/
def gen0 : Rehearsal GaussRecord → Except Err (List Vec × List ℚ) :=
  GaussianDistribution.generate_rehearsal_data sample_gauss0

/-- Fresh Gaussian-record base state with an integer sample count, as the
trainer loop's store. -/
def s00 : Rehearsal GaussRecord := Rehearsal.init GaussRecord "uci" (PyVal.int 1) "saves"

/-- Two concrete tasks: task 0 brings classes 0 and 1, task 1 brings class 2. -/
def tasks0 : List TaskData := [⟨[[0, 0], [1, 1]], [0, 1]⟩, ⟨[[2, 2]], [2]⟩]

/-! ### Helper lemmas about the embedded operations -/

lemma dict_insert_keys {κ β : Type} [DecidableEq κ] (d : List (κ × β)) (k : κ) (v : β) :
    (dict_insert d k v).map Prod.fst =
      if k ∈ d.map Prod.fst then d.map Prod.fst else d.map Prod.fst ++ [k] := by
  induction d with
  | nil => simp [dict_insert]
  | cons p rest ih =>
    by_cases h : p.1 = k
    · simp [dict_insert, h]
    · simp only [dict_insert, if_neg h, List.map_cons, ih, List.mem_cons]
      have hk : ¬ k = p.1 := fun hc => h hc.symm
      by_cases hm : k ∈ rest.map Prod.fst
      · simp [hm, hk]
      · simp [hm, hk]

lemma mem_dict_insert_keys {κ β : Type} [DecidableEq κ] (d : List (κ × β)) (k : κ) (v : β)
    (c : κ) : c ∈ (dict_insert d k v).map Prod.fst ↔ c ∈ d.map Prod.fst ∨ c = k := by
  rw [dict_insert_keys]
  by_cases hm : k ∈ d.map Prod.fst
  · simp only [if_pos hm]
    constructor
    · exact fun h => Or.inl h
    · rintro (h | rfl)
      · exact h
      · exact hm
  · simp [if_neg hm, List.mem_append]

lemma mem_dict_insert_self {κ β : Type} [DecidableEq κ] (d : List (κ × β)) (k : κ) (v : β) :
    (k, v) ∈ dict_insert d k v := by
  induction d with
  | nil => simp [dict_insert]
  | cons p rest ih =>
    by_cases h : p.1 = k
    · simp [dict_insert, h]
    · simp [dict_insert, h, ih]

lemma find?_dict_insert {κ β : Type} [DecidableEq κ] (d : List (κ × β)) (k : κ) (v : β) :
    (dict_insert d k v).find? (fun p => decide (p.1 = k)) = some (k, v) := by
  induction d with
  | nil => simp [dict_insert]
  | cons p rest ih =>
    by_cases h : p.1 = k
    · simp [dict_insert, h]
    · simp [dict_insert, h, List.find?_cons, ih]

lemma mem_insertSorted (x c : ℚ) (l : List ℚ) :
    c ∈ insertSorted x l ↔ c = x ∨ c ∈ l := by
  induction l with
  | nil => simp [insertSorted]
  | cons y ys ih =>
    by_cases h : x ≤ y
    · simp [insertSorted, h]
    · simp [insertSorted, h, ih]
      tauto

lemma mem_sortQ (c : ℚ) (l : List ℚ) : c ∈ sortQ l ↔ c ∈ l := by
  induction l with
  | nil => simp [sortQ]
  | cons y ys ih =>
    simp only [sortQ, List.foldr_cons, List.mem_cons]
    rw [show ys.foldr insertSorted [] = sortQ ys from rfl] at *
    rw [mem_insertSorted, ih]

lemma mem_np_unique (c : ℚ) (l : List ℚ) : c ∈ np_unique l ↔ c ∈ l := by
  rw [np_unique, List.mem_dedup, mem_sortQ]

lemma np_unique_ne_nil (l : List ℚ) (h : l ≠ []) : np_unique l ≠ [] := by
  intro hu
  rcases l with _ | ⟨x, xs⟩
  · exact h rfl
  · have : x ∈ np_unique (x :: xs) := (mem_np_unique x _).2 (List.mem_cons_self x xs)
    rw [hu] at this
    exact List.not_mem_nil x this

lemma np_unique_pair (c : ℚ) : np_unique [c, c] = [c] := by
  have hs : sortQ [c, c] = [c, c] := by
    simp [sortQ, insertSorted, le_refl]
  rw [np_unique, hs]
  simp [List.dedup_cons_of_mem]

lemma exceptMap_ok {β γ : Type} (f : β → Except Err γ) (g : β → γ) :
    ∀ l : List β, (∀ x ∈ l, f x = .ok (g x)) → exceptMap f l = .ok (l.map g)
  | [], _ => rfl
  | x :: xs, h => by
    have hx : f x = .ok (g x) := h x (List.mem_cons_self x xs)
    have hxs : exceptMap f xs = .ok (xs.map g) :=
      exceptMap_ok f g xs (fun y hy => h y (List.mem_cons_of_mem x hy))
    simp only [exceptMap, hx, hxs]
    rfl

@[simp] lemma ok_bind {γ δ : Type} (x : γ) (f : γ → Except Err δ) :
    (Except.ok x >>= f) = f x := rfl

@[simp] lemma error_bind {γ δ : Type} (e : Err) (f : γ → Except Err δ) :
    ((Except.error e : Except Err γ) >>= f) = .error e := rfl

lemma getD_set_self {β : Type} (l : List β) (i : ℕ) (a b : β) (h : i < l.length) :
    (l.set i a).getD i b = a := by
  simp [List.getD, List.getElem?_set_self', h]

lemma getD_set_ne {β : Type} (l : List β) (i j : ℕ) (a b : β) (h : i ≠ j) :
    (l.set i a).getD j b = l.getD j b := by
  simp [List.getD, List.getElem?_set_ne h]

lemma add_task_classes_ok {α : Type} (addC : Rehearsal α → ℚ → List Vec → Rehearsal α)
    (features : List Vec) (labels : List ℚ) (class_dt : ℚ → ℚ)
    (hlen : labels.length = features.length) :
    ∀ (cs : List ℚ) (st : Rehearsal α),
      ∃ s', Rehearsal.add_task_classes addC features labels class_dt cs st = .ok s' := by
  intro cs
  induction cs with
  | nil => intro st; exact ⟨st, rfl⟩
  | cons c cs ih =>
    intro st
    have hb : bool_index features labels c =
        .ok (((features.zip labels).filter (fun p => decide (p.2 = c))).map Prod.fst) := by
      simp [bool_index, hlen]
    simp only [Rehearsal.add_task_classes, hb, ok_bind]
    exact ih _

lemma add_task_classes_err {α : Type} (addC : Rehearsal α → ℚ → List Vec → Rehearsal α)
    (features : List Vec) (labels : List ℚ) (class_dt : ℚ → ℚ)
    (hlen : labels.length ≠ features.length) (c : ℚ) (cs : List ℚ) (st : Rehearsal α) :
    Rehearsal.add_task_classes addC features labels class_dt (c :: cs) st = .error .indexError := by
  have hb : bool_index features labels c = .error .indexError := by
    simp [bool_index, hlen]
  simp [Rehearsal.add_task_classes, hb]

lemma add_task_classes_keys {α : Type} (addC : Rehearsal α → ℚ → List Vec → Rehearsal α)
    (features : List Vec) (labels : List ℚ) (class_dt : ℚ → ℚ)
    (haddC : ∀ st c cf, ∃ v, (addC st c cf).rehearsal = dict_insert st.rehearsal c v) :
    ∀ (cs : List ℚ) (st : Rehearsal α) (s' : Rehearsal α),
      Rehearsal.add_task_classes addC features labels class_dt cs st = .ok s' →
      ∀ x, x ∈ s'.rehearsal.map Prod.fst ↔ x ∈ st.rehearsal.map Prod.fst ∨ x ∈ cs := by
  intro cs
  induction cs with
  | nil =>
    intro st s' h x
    have : st = s' := by
      simpa [Rehearsal.add_task_classes] using h
    subst this
    simp
  | cons c cs ih =>
    intro st s' h x
    cases hb : bool_index features labels c with
    | error e => simp [Rehearsal.add_task_classes, hb] at h
    | ok cf =>
      simp only [Rehearsal.add_task_classes, hb, ok_bind] at h
      have hmem := ih _ _ h x
      obtain ⟨v, hv⟩ := haddC st c cf
      simp only [hv, mem_dict_insert_keys] at hmem
      rw [hmem]
      simp only [List.mem_cons]
      tauto

lemma add_task_ok {α : Type} (addC : Rehearsal α → ℚ → List Vec → Rehearsal α)
    (st : Rehearsal α) (features : List Vec) (labels : List ℚ)
    (task_dt task_dt_wall : ℚ) (class_dt : ℚ → ℚ)
    (hlen : labels.length = features.length) :
    ∃ s', Rehearsal.add_task addC st features labels task_dt task_dt_wall class_dt = .ok s' := by
  obtain ⟨s2, h2⟩ :=
    add_task_classes_ok addC features labels class_dt hlen (np_unique labels) st
  unfold Rehearsal.add_task
  rw [h2]
  exact ⟨_, rfl⟩

lemma add_task_err {α : Type} (addC : Rehearsal α → ℚ → List Vec → Rehearsal α)
    (st : Rehearsal α) (features : List Vec) (labels : List ℚ)
    (task_dt task_dt_wall : ℚ) (class_dt : ℚ → ℚ)
    (hne : labels ≠ []) (hlen : labels.length ≠ features.length) :
    Rehearsal.add_task addC st features labels task_dt task_dt_wall class_dt = .error .indexError := by
  cases hcs : np_unique labels with
  | nil => exact absurd hcs (np_unique_ne_nil labels hne)
  | cons c cs =>
    simp [Rehearsal.add_task, hcs,
      add_task_classes_err addC features labels class_dt hlen c cs st]

lemma add_task_rehearsal {α : Type} (addC : Rehearsal α → ℚ → List Vec → Rehearsal α)
    (st : Rehearsal α) (features : List Vec) (labels : List ℚ)
    (task_dt task_dt_wall : ℚ) (class_dt : ℚ → ℚ) (s' : Rehearsal α)
    (h : Rehearsal.add_task addC st features labels task_dt task_dt_wall class_dt = .ok s') :
    ∃ s2, Rehearsal.add_task_classes addC features labels class_dt (np_unique labels) st = .ok s2
      ∧ s'.rehearsal = s2.rehearsal := by
  cases h2 : Rehearsal.add_task_classes addC features labels class_dt (np_unique labels) st with
  | error e => simp [Rehearsal.add_task, h2] at h
  | ok s2 =>
    refine ⟨s2, rfl, ?_⟩
    simp only [Rehearsal.add_task, h2, ok_bind, Except.ok.injEq] at h
    rw [← h]

lemma add_task_keys {α : Type} (addC : Rehearsal α → ℚ → List Vec → Rehearsal α)
    (st : Rehearsal α) (features : List Vec) (labels : List ℚ)
    (task_dt task_dt_wall : ℚ) (class_dt : ℚ → ℚ) (s' : Rehearsal α)
    (haddC : ∀ st c cf, ∃ v, (addC st c cf).rehearsal = dict_insert st.rehearsal c v)
    (h : Rehearsal.add_task addC st features labels task_dt task_dt_wall class_dt = .ok s') :
    ∀ x, x ∈ s'.rehearsal.map Prod.fst ↔ x ∈ st.rehearsal.map Prod.fst ∨ x ∈ labels := by
  intro x
  obtain ⟨s2, h2, hr⟩ :=
    add_task_rehearsal addC st features labels task_dt task_dt_wall class_dt s' h
  rw [hr, add_task_classes_keys addC features labels class_dt haddC _ _ _ h2 x,
    mem_np_unique]

lemma gmmSelect_acc (bicv : ℕ → ℚ) (fitv : ℕ → Gmm) :
    ∀ (l : List ℕ) (c0 : ℕ),
      ∃ ch, gmmSelect bicv fitv l (some (fitv c0, bicv c0)) = some (fitv ch, bicv ch) ∧
        bicv ch ≤ bicv c0 ∧ (∀ j ∈ l, bicv ch ≤ bicv j) ∧
        (ch = c0 ∨ ∃ pre post, l = pre ++ ch :: post ∧ bicv ch < bicv c0 ∧
          ∀ j ∈ pre, bicv ch < bicv j) := by
  intro l
  induction l with
  | nil => exact fun c0 => ⟨c0, rfl, le_refl _, by simp, Or.inl rfl⟩
  | cons k rest ih =>
    intro c0
    by_cases hk : bicv k < bicv c0
    · obtain ⟨ch, hsel, hle, hall, hcase⟩ := ih k
      refine ⟨ch, ?_, le_of_lt (lt_of_le_of_lt hle hk), ?_, ?_⟩
      · simp only [gmmSelect, if_pos hk]
        exact hsel
      · intro j hj
        rcases List.mem_cons.1 hj with rfl | hj'
        · exact hle
        · exact hall j hj'
      · rcases hcase with rfl | ⟨pre, post, hsplit, hlt, hpre⟩
        · exact Or.inr ⟨[], rest, by simp, hk, by simp⟩
        · refine Or.inr ⟨k :: pre, post, by rw [hsplit, List.cons_append],
            lt_trans hlt hk, ?_⟩
          intro j hj
          rcases List.mem_cons.1 hj with rfl | hj'
          · exact hlt
          · exact hpre j hj'
    · obtain ⟨ch, hsel, hle, hall, hcase⟩ := ih c0
      refine ⟨ch, ?_, hle, ?_, ?_⟩
      · simp only [gmmSelect, if_neg hk]
        exact hsel
      · intro j hj
        rcases List.mem_cons.1 hj with rfl | hj'
        · exact le_trans hle (not_lt.1 hk)
        · exact hall j hj'
      · rcases hcase with rfl | ⟨pre, post, hsplit, hlt, hpre⟩
        · exact Or.inl rfl
        · refine Or.inr ⟨k :: pre, post, by rw [hsplit, List.cons_append], hlt, ?_⟩
          intro j hj
          rcases List.mem_cons.1 hj with rfl | hj'
          · exact lt_of_lt_of_le hlt (not_lt.1 hk)
          · exact hpre j hj'

lemma gmmSelect_none (bicv : ℕ → ℚ) (fitv : ℕ → Gmm) (k0 : ℕ) (rest : List ℕ) :
    ∃ ch pre post, k0 :: rest = pre ++ ch :: post ∧
      gmmSelect bicv fitv (k0 :: rest) none = some (fitv ch, bicv ch) ∧
      (∀ j ∈ k0 :: rest, bicv ch ≤ bicv j) ∧
      (∀ j ∈ pre, bicv ch < bicv j) := by
  obtain ⟨ch, hsel, hle, hall, hcase⟩ := gmmSelect_acc bicv fitv rest k0
  have hstep : gmmSelect bicv fitv (k0 :: rest) none =
      gmmSelect bicv fitv rest (some (fitv k0, bicv k0)) := rfl
  rcases hcase with rfl | ⟨pre, post, hsplit, hlt, hpre⟩
  · refine ⟨ch, [], rest, by simp, by rw [hstep]; exact hsel, ?_, by simp⟩
    intro j hj
    rcases List.mem_cons.1 hj with rfl | hj'
    · exact le_refl _
    · exact hall j hj'
  · refine ⟨ch, k0 :: pre, post, by rw [hsplit, List.cons_append],
      by rw [hstep]; exact hsel, ?_, ?_⟩
    · intro j hj
      rcases List.mem_cons.1 hj with rfl | hj'
      · exact hle
      · exact hall j hj'
    · intro j hj
      rcases List.mem_cons.1 hj with rfl | hj'
      · exact hlt
      · exact hpre j hj'

lemma getD_map_zero : ∀ (v : List ℚ) (i : ℕ), (v.map (fun _ => (0:ℚ))).getD i 0 = 0
  | [], i => by simp [List.getD]
  | x :: xs, 0 => rfl
  | x :: xs, i+1 => by
      simp only [List.map_cons, List.getD_cons_succ]
      exact getD_map_zero xs i

lemma np_mean_pair (v : Vec) : np_mean [v, v] = v := by
  simp only [np_mean, List.foldl_cons, List.foldl_nil, vec_add, List.zipWith_same,
    List.map_map, List.length_cons, List.length_nil]
  have h : ((fun a => a / ((0 + 1 + 1 : ℕ) : ℚ)) ∘ fun a => a + a) = id := by
    funext a
    simp only [Function.comp_apply, id_eq]
    push_cast
    ring
  rw [h, List.map_id]

lemma np_cov_pair (v : Vec) :
    np_cov [v, v] = List.replicate v.length (List.replicate v.length (0:ℚ)) := by
  have hz : List.zipWith (· - ·) v v = v.map (fun _ => (0:ℚ)) := by
    rw [List.zipWith_same]
    exact List.map_congr_left (fun a _ => sub_self a)
  simp only [np_cov, np_mean_pair, List.map_cons, List.map_nil, hz, List.foldl_cons,
    List.foldl_nil, getD_map_zero, mul_zero, add_zero, List.length_cons, List.length_nil]
  norm_num

lemma train_step_store {α : Type} (addC : Rehearsal α → ℚ → List Vec → Rehearsal α)
    (gen : Rehearsal α → Except Err (List Vec × List ℚ))
    (k : ℕ) (st : Rehearsal α) (td : TaskData) (r : Rehearsal α × TaskData)
    (h : Trainer.train_step addC gen k st td = .ok r) :
    Rehearsal.add_task addC st td.x td.y 0 0 (fun _ => 0) = .ok r.1 := by
  by_cases hk : k = 0
  · simp only [Trainer.train_step, if_pos hk] at h
    cases hadd : Rehearsal.add_task addC st td.x td.y 0 0 (fun _ => 0) with
    | error e => rw [hadd, error_bind] at h; cases h
    | ok st2 =>
      rw [hadd, ok_bind] at h
      cases h
      rfl
  · simp only [Trainer.train_step, if_neg hk] at h
    cases hg : gen st with
    | error e => rw [hg, error_bind] at h; cases h
    | ok rl =>
      rw [hg, ok_bind] at h
      cases hadd : Rehearsal.add_task addC st td.x td.y 0 0 (fun _ => 0) with
      | error e => rw [hadd, error_bind] at h; cases h
      | ok st2 =>
        rw [hadd, ok_bind] at h
        cases h
        rfl

lemma train_loop_data {α : Type} (addC : Rehearsal α → ℚ → List Vec → Rehearsal α)
    (gen : Rehearsal α → Except Err (List Vec × List ℚ))
    (s0 : Rehearsal α) (tasks : List TaskData) :
    ∀ (k : ℕ) (s : Rehearsal α) (d : List TaskData),
      Trainer.train_loop addC gen s0 tasks k = .ok (s, d) →
      d.length = tasks.length ∧
        ∀ j, k ≤ j → d.getD j ⟨[], []⟩ = tasks.getD j ⟨[], []⟩ := by
  intro k
  induction k with
  | zero =>
    intro s d h
    simp only [Trainer.train_loop, Except.ok.injEq, Prod.mk.injEq] at h
    rw [← h.2]
    exact ⟨rfl, fun j _ => rfl⟩
  | succ k ih =>
    intro s d h
    cases htl : Trainer.train_loop addC gen s0 tasks k with
    | error e => rw [Trainer.train_loop, htl, error_bind] at h; cases h
    | ok sd =>
      obtain ⟨s1, d1⟩ := sd
      cases hst : Trainer.train_step addC gen k s1 (d1.getD k ⟨[], []⟩) with
      | error e =>
        rw [Trainer.train_loop, htl, ok_bind] at h
        simp only at h
        rw [hst, error_bind] at h
        cases h
      | ok r =>
        rw [Trainer.train_loop, htl, ok_bind] at h
        simp only at h
        rw [hst, ok_bind] at h
        obtain ⟨ihl, ihres⟩ := ih s1 d1 htl
        cases h
        refine ⟨by rw [List.length_set]; exact ihl, ?_⟩
        intro j hj
        rw [getD_set_ne _ _ _ _ _ (by omega : k ≠ j)]
        exact ihres j (by omega)

lemma train_loop_keys {α : Type} (addC : Rehearsal α → ℚ → List Vec → Rehearsal α)
    (gen : Rehearsal α → Except Err (List Vec × List ℚ))
    (s0 : Rehearsal α) (tasks : List TaskData)
    (haddC : ∀ st c cf, ∃ v, (addC st c cf).rehearsal = dict_insert st.rehearsal c v)
    (h0 : s0.rehearsal = []) :
    ∀ (k : ℕ) (s : Rehearsal α) (d : List TaskData),
      Trainer.train_loop addC gen s0 tasks k = .ok (s, d) →
      ∀ x, x ∈ s.rehearsal.map Prod.fst ↔ ∃ j, j < k ∧ x ∈ (tasks.getD j ⟨[], []⟩).y := by
  intro k
  induction k with
  | zero =>
    intro s d h x
    simp only [Trainer.train_loop, Except.ok.injEq, Prod.mk.injEq] at h
    rw [← h.1, h0]
    simp
  | succ k ih =>
    intro s d h x
    cases htl : Trainer.train_loop addC gen s0 tasks k with
    | error e => rw [Trainer.train_loop, htl, error_bind] at h; cases h
    | ok sd =>
      obtain ⟨s1, d1⟩ := sd
      cases hst : Trainer.train_step addC gen k s1 (d1.getD k ⟨[], []⟩) with
      | error e =>
        rw [Trainer.train_loop, htl, ok_bind] at h
        simp only at h
        rw [hst, error_bind] at h
        cases h
      | ok r =>
        rw [Trainer.train_loop, htl, ok_bind] at h
        simp only at h
        rw [hst, ok_bind] at h
        have hadd := train_step_store addC gen k s1 (d1.getD k ⟨[], []⟩) r hst
        have htd : d1.getD k ⟨[], []⟩ = tasks.getD k ⟨[], []⟩ :=
          (train_loop_data addC gen s0 tasks k s1 d1 htl).2 k (le_refl k)
        have hkeys := add_task_keys addC s1 _ _ 0 0 (fun _ => 0) r.1 haddC hadd x
        have hs : s = r.1 := by cases h; rfl
        rw [hs, hkeys, ih s1 d1 htl x, htd]
        constructor
        · rintro (⟨j, hj, hx⟩ | hx)
          · exact ⟨j, by omega, hx⟩
          · exact ⟨k, by omega, hx⟩
        · rintro ⟨j, hj, hx⟩
          rcases Nat.lt_succ_iff_lt_or_eq.1 hj with hj' | rfl
          · exact Or.inl ⟨j, hj', hx⟩
          · exact Or.inr hx

lemma np_concatenate_ne {β : Type} (xs : List (List β)) (h : xs ≠ []) :
    np_concatenate xs = .ok xs.flatten := by
  cases xs with
  | nil => exact absurd rfl h
  | cons a as => rfl

lemma sum_map_const_nat {β : Type} (l : List β) (n : ℕ) :
    (l.map (fun _ => n)).sum = l.length * n := by
  induction l with
  | nil => simp
  | cons x xs ih => simp [ih, Nat.succ_mul, Nat.add_comm]

lemma gauss_duplicate_rows_add_task (st : Rehearsal GaussRecord) (v : Vec)
    (c task_dt task_dt_wall : ℚ) (class_dt : ℚ → ℚ) :
    ∃ s', Rehearsal.add_task GaussianDistribution.add_class st [v, v] [c, c]
        task_dt task_dt_wall class_dt = .ok s' ∧
      (c, (v, List.replicate v.length (List.replicate v.length (0:ℚ)))) ∈ s'.rehearsal := by
  obtain ⟨s', hs'⟩ := add_task_ok GaussianDistribution.add_class st [v, v] [c, c]
    task_dt task_dt_wall class_dt rfl
  refine ⟨s', hs', ?_⟩
  obtain ⟨s2, h2, hr⟩ := add_task_rehearsal GaussianDistribution.add_class st [v, v] [c, c]
    task_dt task_dt_wall class_dt s' hs'
  rw [np_unique_pair] at h2
  have hb : bool_index [v, v] [c, c] c = .ok [v, v] := by
    simp [bool_index]
  simp only [Rehearsal.add_task_classes, hb, ok_bind, Except.ok.injEq] at h2
  rw [hr, ← h2]
  simp only [GaussianDistribution.add_class, np_mean_pair, np_cov_pair]
  exact mem_dict_insert_self st.rehearsal c _

/-! ### Claim theorems -/

/-- C10: for every argument configuration, `Trainer.__init__` fails at the
rehearsal-store creation step: it instantiates the abstract base class
`Rehearsal` directly (passing only a dataset name and a save directory), and
`Rehearsal` declares abstract methods `add_class` and
`generate_rehearsal_data` with no implementation, so no `Trainer` is ever
successfully constructed. -/
theorem trainer_init_always_fails_abstract (args : Args) :
    Trainer.init args = .error .typeError := rfl

/-- C9 (evaluation at the failing input): `GaussianDistribution('mnist',
'outdir')` binds the supplied save path `'outdir'` into the
`num_samples_per_class` slot (a string, so not a positive integer), and its
save path is derived from the base constructor's default `'saves'`, not from
the supplied path; the mixture variant, by contrast, binds its integer
`num_samples_per_class = 10` correctly. -/
theorem gaussian_init_misbinds_constructor_args :
    (GaussianDistribution.init "mnist" "outdir").num_samples_per_class = PyVal.str "outdir" ∧
    (GaussianDistribution.init "mnist" "outdir").save_path = "saves/mnist/rehearsal_data.pkl" ∧
    (GaussianMixtureModel.init "mnist" 10 [2, 3, 4] none "saves").num_samples_per_class
      = PyVal.int 10 := by
  refine ⟨rfl, ?_, rfl⟩
  decide

/-- C8 (evaluation at the failing input): two successive `add_task` calls on a
fresh store record their processing-time durations under task indices 0 and 1
but their wall-clock durations under task indices 1 and 2: `new_task_id` is
re-evaluated from `len(task_creation_time)` after the processing-time entry
has been inserted, so the two durations of one registration never share a
task index. -/
theorem add_task_timing_key_drift :
    Except.map
      (fun s => (s.task_creation_time.map Prod.fst, s.task_creation_time_wall.map Prod.fst))
      (Rehearsal.add_task (GaussianMixtureModel.add_class fit0 bic0 [2] none)
          (GaussianMixtureModel.init "uci" 5 [2] none "saves").toRehearsal
          [[1], [2]] [0, 1] 1 2 (fun _ => 0) >>= fun s1 =>
        Rehearsal.add_task (GaussianMixtureModel.add_class fit0 bic0 [2] none)
          s1 [[3], [4]] [2, 3] 3 4 (fun _ => 0))
      = .ok ([0, 1], [1, 2]) := by
  rfl

/-- C4 (counterexample): calling `generate_rehearsal_data` on a freshly
constructed store of either variant (whose `rehearsal` dict is empty) does
not return empty arrays — it raises `ValueError`, because `np.concatenate`
is applied to an empty list of blocks. -/
theorem generate_empty_store_cex :
    GaussianDistribution.generate_rehearsal_data sample_gauss0
        (GaussianDistribution.init "uci" "out").toRehearsal = .error .valueError ∧
    GaussianMixtureModel.generate_rehearsal_data sample_gmm0
        (GaussianMixtureModel.init "uci" 5 [2, 3, 4] none "saves").toRehearsal
      = .error .valueError := ⟨rfl, rfl⟩

/-- C4 (amended): for every store of either variant whose `RehearsalState` is
empty, `generate_rehearsal_data` fails with `ValueError` (from
`np.concatenate` on an empty block list) instead of returning empty arrays. -/
theorem generate_empty_store_value_error
    (sg : Vec → Mat → ℕ → List Vec) (sm : Gmm → ℕ → List Vec)
    (s1 : Rehearsal GaussRecord) (s2 : Rehearsal GmmRecord)
    (h1 : s1.rehearsal = []) (h2 : s2.rehearsal = []) :
    GaussianDistribution.generate_rehearsal_data sg s1 = .error .valueError ∧
    GaussianMixtureModel.generate_rehearsal_data sm s2 = .error .valueError := by
  constructor
  · simp [GaussianDistribution.generate_rehearsal_data, h1, exceptMap, np_concatenate]
  · simp [GaussianMixtureModel.generate_rehearsal_data, h2, exceptMap, np_concatenate]

/-- Witness for the amended C4 statement at concrete empty stores. -/
theorem generate_empty_store_value_error_witness :
    GaussianDistribution.generate_rehearsal_data sample_gauss0 s00 = .error .valueError ∧
    GaussianMixtureModel.generate_rehearsal_data sample_gmm0
        (GaussianMixtureModel.init "uci" 5 [2] none "saves").toRehearsal
      = .error .valueError :=
  generate_empty_store_value_error sample_gauss0 sample_gmm0 s00
    (GaussianMixtureModel.init "uci" 5 [2] none "saves").toRehearsal rfl rfl

/-- C7: saving a store and then loading (into any store object whose save path
is the same) reproduces the `rehearsal` dict exactly — same class ids, same
insertion order, records identical to the saved ones — leaving every other
field of the loading object untouched. -/
theorem save_load_roundtrip (α : Type) (s t : Rehearsal α) (fs : FS α)
    (hpath : t.save_path = s.save_path) :
    Rehearsal.load t (Rehearsal.save s fs) = .ok { t with rehearsal := s.rehearsal } := by
  simp [Rehearsal.load, Rehearsal.save, fs_read, fs_write, hpath, find?_dict_insert]

/-- Witness for C7 at a concrete two-class Gaussian store and empty file
system. -/
theorem save_load_roundtrip_witness :
    Rehearsal.load gstore1 (Rehearsal.save gstore1 []) =
      .ok { gstore1 with rehearsal := gstore1.rehearsal } :=
  save_load_roundtrip GaussRecord gstore1 gstore1 [] rfl

/-- C5 (counterexample): registering a class whose two rows are identical —
so its sample covariance is the singular zero matrix — does not make
`fit_class` fail with any error: `add_task` returns successfully and the
degenerate `(mean, covariance)` record is silently stored.  No
`DegenerateDistributionError` or `FitError` exists anywhere in the code, and
nothing flags the class. -/
theorem gaussian_singular_fit_succeeds_cex :
    ∃ s', Rehearsal.add_task GaussianDistribution.add_class
        (GaussianDistribution.init "uci" "out").toRehearsal
        [[1, 2], [1, 2]] [5, 5] 0 0 (fun _ => 0) = .ok s' ∧
      (5, ([1, 2], [[0, 0], [0, 0]])) ∈ s'.rehearsal := by
  obtain ⟨s', h1, h2⟩ := gauss_duplicate_rows_add_task
    (GaussianDistribution.init "uci" "out").toRehearsal [1, 2] 5 0 0 (fun _ => 0)
  refine ⟨s', h1, ?_⟩
  simpa [List.replicate] using h2

/-- C5 (amended): the Gaussian variant's fit never fails on degenerate data:
for every store and every duplicated-row class (whose covariance is the
singular zero matrix), `add_task` succeeds and stores the class's mean
together with the zero covariance matrix; the class is recorded like any
other rather than raising `DegenerateDistributionError`/`FitError` or being
flagged. -/
theorem gaussian_degenerate_fit_stores_record (st : Rehearsal GaussRecord) (v : Vec)
    (c task_dt task_dt_wall : ℚ) (class_dt : ℚ → ℚ) :
    ∃ s', Rehearsal.add_task GaussianDistribution.add_class st [v, v] [c, c]
        task_dt task_dt_wall class_dt = .ok s' ∧
      (c, (v, List.replicate v.length (List.replicate v.length (0:ℚ)))) ∈ s'.rehearsal :=
  gauss_duplicate_rows_add_task st v c task_dt task_dt_wall class_dt

/-- C6 (counterexample): `add_task` does not fail with any shape-mismatch
error: registering three feature rows with an empty label array (row counts
3 and 0 differ) succeeds and simply registers no class at all. -/
theorem add_task_shape_mismatch_no_error_cex :
    ([[1], [2], [3]] : List Vec).length ≠ ([] : List ℚ).length ∧
    Except.map (fun s => s.rehearsal)
      (Rehearsal.add_task GaussianDistribution.add_class
        (GaussianDistribution.init "uci" "out").toRehearsal
        [[1], [2], [3]] [] 0 0 (fun _ => 0))
      = .ok [] :=
  ⟨by decide, rfl⟩

/-- C6 (amended): `add_task` performs no explicit shape validation.  When the
label count equals the feature-row count it succeeds, partitioning rows by
unique label value and fitting once per distinct class, so the resulting
keys are the old keys plus the labels present; when the counts differ it
either raises numpy's `IndexError` from boolean-mask indexing (when at least
one distinct label exists) or succeeds vacuously (empty labels); no
`ShapeMismatchError` exists.  In particular labels `{0,1}` with 10
dimension-4 rows each yield exactly the keys `[0, 1]`. -/
theorem add_task_no_shape_validation :
    (∀ (st : Rehearsal GaussRecord) (f : List Vec) (l : List ℚ) (dt dtw : ℚ) (cdt : ℚ → ℚ),
      l.length = f.length →
      ∃ s', Rehearsal.add_task GaussianDistribution.add_class st f l dt dtw cdt = .ok s' ∧
        ∀ x, x ∈ s'.rehearsal.map Prod.fst ↔ x ∈ st.rehearsal.map Prod.fst ∨ x ∈ l) ∧
    (∀ (st : Rehearsal GaussRecord) (f : List Vec) (l : List ℚ) (dt dtw : ℚ) (cdt : ℚ → ℚ),
      l ≠ [] → l.length ≠ f.length →
      Rehearsal.add_task GaussianDistribution.add_class st f l dt dtw cdt
        = .error .indexError) ∧
    Except.map (fun s => s.rehearsal.map Prod.fst)
      (Rehearsal.add_task GaussianDistribution.add_class
        (GaussianDistribution.init "uci" "out").toRehearsal
        (List.replicate 10 [0, 0, 0, 0] ++ List.replicate 10 [1, 1, 1, 1])
        (List.replicate 10 (0 : ℚ) ++ List.replicate 10 1) 0 0 (fun _ => 0))
      = .ok [0, 1] := by
  refine ⟨?_, ?_, ?_⟩
  · intro st f l dt dtw cdt hlen
    obtain ⟨s', hs'⟩ := add_task_ok GaussianDistribution.add_class st f l dt dtw cdt hlen
    exact ⟨s', hs', add_task_keys GaussianDistribution.add_class st f l dt dtw cdt s'
      (fun st c cf => ⟨(np_mean cf, np_cov cf), rfl⟩) hs'⟩
  · intro st f l dt dtw cdt hne hlen
    exact add_task_err GaussianDistribution.add_class st f l dt dtw cdt hne hlen
  · rfl

/-- Witness for the amended C6 statement: a matched-shape registration and a
mismatched nonempty-label registration at concrete inputs. -/
theorem add_task_no_shape_validation_witness :
    (∃ s', Rehearsal.add_task GaussianDistribution.add_class s00 [[1]] [0] 0 0 (fun _ => 0)
        = .ok s' ∧
      ∀ x, x ∈ s'.rehearsal.map Prod.fst ↔ x ∈ s00.rehearsal.map Prod.fst ∨
        x ∈ ([0] : List ℚ)) ∧
    Rehearsal.add_task GaussianDistribution.add_class s00 [[1], [2]] [0] 0 0 (fun _ => 0)
      = .error .indexError :=
  ⟨add_task_no_shape_validation.1 s00 [[1]] [0] 0 0 (fun _ => 0) rfl,
   add_task_no_shape_validation.2.1 s00 [[1], [2]] [0] 0 0 (fun _ => 0)
     (by decide) (by decide)⟩

/-- C3: `GaussianMixtureModel.add_class` stores, for the fitted class, the
candidate from `components_range` with the lowest BIC, ties broken in favour
of the earliest candidate (every strictly earlier candidate has strictly
larger BIC); with a single-element `components_range = [k]` the split forces
`pre = post = []`, so that candidate is always selected regardless of its
BIC; and the selection is a pure function of the data, the range and the
seed, hence identical across repeated runs. -/
theorem gmm_add_class_selects_lowest_bic
    (fit : Option ℕ → ℕ → List Vec → List (ℚ × Vec × Mat))
    (bic : Option ℕ → ℕ → List Vec → ℚ)
    (components_range : List ℕ) (seed : Option ℕ)
    (st : Rehearsal GmmRecord) (class_id : ℚ) (class_features : List Vec)
    (hr : components_range ≠ []) :
    ∃ chosen pre post,
      components_range = pre ++ chosen :: post ∧
      GaussianMixtureModel.add_class fit bic components_range seed st class_id class_features
        = { st with rehearsal := dict_insert st.rehearsal class_id (some ⟨chosen, fit seed chosen class_features⟩) } ∧
      (∀ j ∈ components_range, bic seed chosen class_features ≤ bic seed j class_features) ∧
      (∀ j ∈ pre, bic seed chosen class_features < bic seed j class_features) := by
  rcases components_range with _ | ⟨k0, rest⟩
  · exact absurd rfl hr
  · obtain ⟨ch, pre, post, hsplit, hsel, hall, hpre⟩ :=
      gmmSelect_none (fun k => bic seed k class_features)
        (fun k => ⟨k, fit seed k class_features⟩) k0 rest
    refine ⟨ch, pre, post, hsplit, ?_, ?_, ?_⟩
    · unfold GaussianMixtureModel.add_class
      rw [hsel]
      rfl
    · exact fun j hj => hall j hj
    · exact fun j hj => hpre j hj

/-- Witness for C3 at a concrete two-candidate range with tied BIC scores. -/
theorem gmm_add_class_selects_lowest_bic_witness :
    ∃ chosen pre post,
      ([2, 3] : List ℕ) = pre ++ chosen :: post ∧
      GaussianMixtureModel.add_class fit0 bic0 [2, 3] none mstore1 0 []
        = { mstore1 with rehearsal := dict_insert mstore1.rehearsal 0 (some ⟨chosen, fit0 none chosen []⟩) } ∧
      (∀ j ∈ ([2, 3] : List ℕ), bic0 none chosen [] ≤ bic0 none j []) ∧
      (∀ j ∈ pre, bic0 none chosen [] < bic0 none j []) :=
  gmm_add_class_selects_lowest_bic fit0 bic0 [2, 3] none mstore1 0 [] (by decide)

/-- C2: on a non-empty state holding `c` classes whose records are
`d`-dimensional (and, for the mixture variant, all fitted), with an integer
`num_samples_per_class = n` and a sampler meeting numpy's shape contract,
`generate_rehearsal_data` of either variant returns the per-class sample
blocks concatenated in dict insertion order: `c·n` feature rows of width `d`
and `c·n` labels, each stored class contributing exactly `n` rows labelled
with its class id. -/
theorem generate_shape_and_labels (n d : ℕ) :
    (∀ (sample : Vec → Mat → ℕ → List Vec) (st : Rehearsal GaussRecord),
      st.num_samples_per_class = PyVal.int n →
      st.rehearsal ≠ [] →
      (∀ p ∈ st.rehearsal, (sample p.2.1 p.2.2 n).length = n ∧
        ∀ r ∈ sample p.2.1 p.2.2 n, r.length = d) →
      GaussianDistribution.generate_rehearsal_data sample st
        = .ok ((st.rehearsal.map (fun p => sample p.2.1 p.2.2 n)).flatten,
               (st.rehearsal.map (fun p => List.replicate n p.1)).flatten) ∧
      (st.rehearsal.map (fun p => sample p.2.1 p.2.2 n)).flatten.length
        = st.rehearsal.length * n ∧
      (st.rehearsal.map (fun p => List.replicate n p.1)).flatten.length
        = st.rehearsal.length * n ∧
      (∀ r ∈ (st.rehearsal.map (fun p => sample p.2.1 p.2.2 n)).flatten, r.length = d)) ∧
    (∀ (sample : Gmm → ℕ → List Vec) (st : Rehearsal GmmRecord),
      st.num_samples_per_class = PyVal.int n →
      st.rehearsal ≠ [] →
      (∀ p ∈ st.rehearsal, ∃ g, p.2 = some g ∧ (sample g n).length = n ∧
        ∀ r ∈ sample g n, r.length = d) →
      GaussianMixtureModel.generate_rehearsal_data sample st
        = .ok ((st.rehearsal.map (fun p => sample (p.2.getD ⟨0, []⟩) n)).flatten,
               (st.rehearsal.map (fun p => List.replicate n p.1)).flatten) ∧
      (st.rehearsal.map (fun p => sample (p.2.getD ⟨0, []⟩) n)).flatten.length
        = st.rehearsal.length * n ∧
      (st.rehearsal.map (fun p => List.replicate n p.1)).flatten.length
        = st.rehearsal.length * n ∧
      (∀ r ∈ (st.rehearsal.map (fun p => sample (p.2.getD ⟨0, []⟩) n)).flatten,
        r.length = d)) := by
  constructor
  · intro sample st hn hne hs
    have hblocks : exceptMap
        (fun (p : ℚ × GaussRecord) => do
          let m ← st.num_samples_per_class.asInt
          .ok (sample p.2.1 p.2.2 m, List.replicate m p.1)) st.rehearsal
        = .ok (st.rehearsal.map
            (fun p => (sample p.2.1 p.2.2 n, List.replicate n p.1))) := by
      apply exceptMap_ok
      intro p hp
      rw [hn]
      rfl
    refine ⟨?_, ?_, ?_, ?_⟩
    · unfold GaussianDistribution.generate_rehearsal_data
      rw [hblocks, ok_bind]
      have h1 : (st.rehearsal.map
          (fun p : ℚ × GaussRecord => (sample p.2.1 p.2.2 n, List.replicate n p.1))).map
            Prod.fst ≠ [] := by
        simp only [ne_eq, List.map_eq_nil_iff]
        exact hne
      have h2 : (st.rehearsal.map
          (fun p : ℚ × GaussRecord => (sample p.2.1 p.2.2 n, List.replicate n p.1))).map
            Prod.snd ≠ [] := by
        simp only [ne_eq, List.map_eq_nil_iff]
        exact hne
      rw [np_concatenate_ne _ h1, ok_bind, np_concatenate_ne _ h2, ok_bind]
      rw [List.map_map, List.map_map]
      rfl
    · rw [List.length_flatten, List.map_map]
      simp only [Function.comp_def]
      rw [List.map_congr_left (fun p hp => (hs p hp).1), sum_map_const_nat]
    · rw [List.length_flatten, List.map_map]
      simp only [Function.comp_def]
      rw [List.map_congr_left (fun p _ => List.length_replicate n p.1), sum_map_const_nat]
    · intro r hr
      rw [List.mem_flatten] at hr
      obtain ⟨b, hb, hrb⟩ := hr
      rw [List.mem_map] at hb
      obtain ⟨p, hp, rfl⟩ := hb
      exact (hs p hp).2 r hrb
  · intro sample st hn hne hs
    have hblocks : exceptMap
        (fun (p : ℚ × GmmRecord) =>
          match p.2 with
          | none => .error Err.attributeError
          | some g => do
              let m ← st.num_samples_per_class.asInt
              .ok (sample g m, List.replicate m p.1)) st.rehearsal
        = .ok (st.rehearsal.map
            (fun p => (sample (p.2.getD ⟨0, []⟩) n, List.replicate n p.1))) := by
      apply exceptMap_ok
      intro p hp
      obtain ⟨g, hg, _, _⟩ := hs p hp
      rw [hg, hn]
      rfl
    refine ⟨?_, ?_, ?_, ?_⟩
    · unfold GaussianMixtureModel.generate_rehearsal_data
      rw [hblocks, ok_bind]
      have h1 : (st.rehearsal.map
          (fun p : ℚ × GmmRecord =>
            (sample (p.2.getD ⟨0, []⟩) n, List.replicate n p.1))).map Prod.fst ≠ [] := by
        simp only [ne_eq, List.map_eq_nil_iff]
        exact hne
      have h2 : (st.rehearsal.map
          (fun p : ℚ × GmmRecord =>
            (sample (p.2.getD ⟨0, []⟩) n, List.replicate n p.1))).map Prod.snd ≠ [] := by
        simp only [ne_eq, List.map_eq_nil_iff]
        exact hne
      rw [np_concatenate_ne _ h1, ok_bind, np_concatenate_ne _ h2, ok_bind]
      rw [List.map_map, List.map_map]
      rfl
    · rw [List.length_flatten, List.map_map]
      simp only [Function.comp_def]
      have hcong : ∀ p ∈ st.rehearsal,
          (sample (p.2.getD ⟨0, []⟩) n).length = n := by
        intro p hp
        obtain ⟨g, hg, hlen, _⟩ := hs p hp
        rw [hg, Option.getD_some]
        exact hlen
      rw [List.map_congr_left hcong, sum_map_const_nat]
    · rw [List.length_flatten, List.map_map]
      simp only [Function.comp_def]
      rw [List.map_congr_left (fun p _ => List.length_replicate n p.1), sum_map_const_nat]
    · intro r hr
      rw [List.mem_flatten] at hr
      obtain ⟨b, hb, hrb⟩ := hr
      rw [List.mem_map] at hb
      obtain ⟨p, hp, rfl⟩ := hb
      obtain ⟨g, hg, _, hw⟩ := hs p hp
      rw [hg, Option.getD_some] at hrb
      exact hw r hrb

/-- Witness for C2 at concrete two-class Gaussian and one-class mixture
stores with `num_samples_per_class = 3` and dimension 2. -/
theorem generate_shape_and_labels_witness :
    (GaussianDistribution.generate_rehearsal_data sample_gauss0 gstore1
        = .ok ((gstore1.rehearsal.map (fun p => sample_gauss0 p.2.1 p.2.2 3)).flatten,
               (gstore1.rehearsal.map (fun p => List.replicate 3 p.1)).flatten) ∧
      (gstore1.rehearsal.map (fun p => sample_gauss0 p.2.1 p.2.2 3)).flatten.length
        = gstore1.rehearsal.length * 3 ∧
      (gstore1.rehearsal.map (fun p => List.replicate 3 p.1)).flatten.length
        = gstore1.rehearsal.length * 3 ∧
      (∀ r ∈ (gstore1.rehearsal.map (fun p => sample_gauss0 p.2.1 p.2.2 3)).flatten,
        r.length = 2)) ∧
    (GaussianMixtureModel.generate_rehearsal_data sample_gmm0 mstore1
        = .ok ((mstore1.rehearsal.map (fun p => sample_gmm0 (p.2.getD ⟨0, []⟩) 3)).flatten,
               (mstore1.rehearsal.map (fun p => List.replicate 3 p.1)).flatten) ∧
      (mstore1.rehearsal.map (fun p => sample_gmm0 (p.2.getD ⟨0, []⟩) 3)).flatten.length
        = mstore1.rehearsal.length * 3 ∧
      (mstore1.rehearsal.map (fun p => List.replicate 3 p.1)).flatten.length
        = mstore1.rehearsal.length * 3 ∧
      (∀ r ∈ (mstore1.rehearsal.map (fun p => sample_gmm0 (p.2.getD ⟨0, []⟩) 3)).flatten,
        r.length = 2)) :=
  ⟨(generate_shape_and_labels 3 2).1 sample_gauss0 gstore1 rfl (by decide) (by decide),
   (generate_shape_and_labels 3 2).2 sample_gmm0 mstore1 rfl (by decide) (by
      intro p hp
      rw [show mstore1.rehearsal = [(0, some ⟨2, []⟩)] from rfl, List.mem_singleton] at hp
      subst hp
      exact ⟨⟨2, []⟩, rfl, by decide, by decide⟩)⟩

/-- C1: in the task loop of `Trainer.train`, for every task `k > 0` that the
loop processes successfully, the synthetic rehearsal rows merged into task
`k`'s augmented set are generated from the store exactly as it stood after
tasks `0..k-1` — whose class keys are precisely the labels of tasks
`0..k-1`, so no not-yet-registered class can appear — and only after that
generation is task `k`'s real, unaugmented data registered into the store;
the augmented set is task `k`'s real rows followed by the synthetic rows. -/
theorem train_generates_before_register (α : Type)
    (addC : Rehearsal α → ℚ → List Vec → Rehearsal α)
    (gen : Rehearsal α → Except Err (List Vec × List ℚ))
    (s0 : Rehearsal α) (tasks : List TaskData) (k : ℕ)
    (s2 : Rehearsal α) (d2 : List TaskData)
    (haddC : ∀ st c cf, ∃ v, (addC st c cf).rehearsal = dict_insert st.rehearsal c v)
    (h0 : s0.rehearsal = [])
    (hk : 0 < k) (hklen : k < tasks.length)
    (hsucc : Trainer.train_loop addC gen s0 tasks (k + 1) = .ok (s2, d2)) :
    ∃ s1 d1 rd rl,
      Trainer.train_loop addC gen s0 tasks k = .ok (s1, d1) ∧
      gen s1 = .ok (rd, rl) ∧
      (∀ x, x ∈ s1.rehearsal.map Prod.fst ↔
        ∃ j, j < k ∧ x ∈ (tasks.getD j ⟨[], []⟩).y) ∧
      d2.getD k ⟨[], []⟩ =
        ⟨(tasks.getD k ⟨[], []⟩).x ++ rd, (tasks.getD k ⟨[], []⟩).y ++ rl⟩ ∧
      Rehearsal.add_task addC s1 (tasks.getD k ⟨[], []⟩).x (tasks.getD k ⟨[], []⟩).y
        0 0 (fun _ => 0) = .ok s2 := by
  cases htl : Trainer.train_loop addC gen s0 tasks k with
  | error e => rw [Trainer.train_loop, htl, error_bind] at hsucc; cases hsucc
  | ok sd =>
    obtain ⟨s1, d1⟩ := sd
    obtain ⟨hd1len, hd1⟩ := train_loop_data addC gen s0 tasks k s1 d1 htl
    have htd : d1.getD k ⟨[], []⟩ = tasks.getD k ⟨[], []⟩ := hd1 k (le_refl k)
    cases hst : Trainer.train_step addC gen k s1 (d1.getD k ⟨[], []⟩) with
    | error e =>
      rw [Trainer.train_loop, htl, ok_bind] at hsucc
      simp only at hsucc
      rw [hst, error_bind] at hsucc
      cases hsucc
    | ok r =>
      rw [Trainer.train_loop, htl, ok_bind] at hsucc
      simp only at hsucc
      rw [hst, ok_bind] at hsucc
      simp only [Trainer.train_step, if_neg (Nat.pos_iff_ne_zero.1 hk)] at hst
      cases hg : gen s1 with
      | error e => rw [hg, error_bind] at hst; cases hst
      | ok rl2 =>
        rw [hg, ok_bind] at hst
        cases hadd : Rehearsal.add_task addC s1 (d1.getD k ⟨[], []⟩).x
            (d1.getD k ⟨[], []⟩).y 0 0 (fun _ => 0) with
        | error e => rw [hadd, error_bind] at hst; cases hst
        | ok st2 =>
          rw [hadd, ok_bind] at hst
          cases hst
          cases hsucc
          refine ⟨s1, d1, rl2.1, rl2.2, rfl, by rw [hg], ?_, ?_, ?_⟩
          · intro x
            exact train_loop_keys addC gen s0 tasks haddC h0 k s1 d1 htl x
          · rw [getD_set_self _ _ _ _ (by rw [hd1len]; exact hklen), htd]
          · rw [← htd]
            exact hadd

/-- Witness for C1: the concrete two-task run (task 0 brings classes 0 and 1,
task 1 brings class 2) through the Gaussian store. -/
theorem train_generates_before_register_witness :
    ∃ s2 d2,
      Trainer.train_loop GaussianDistribution.add_class gen0 s00 tasks0 2 = .ok (s2, d2) ∧
      ∃ s1 d1 rd rl,
        Trainer.train_loop GaussianDistribution.add_class gen0 s00 tasks0 1 = .ok (s1, d1) ∧
        gen0 s1 = .ok (rd, rl) ∧
        (∀ x, x ∈ s1.rehearsal.map Prod.fst ↔
          ∃ j, j < 1 ∧ x ∈ (tasks0.getD j ⟨[], []⟩).y) ∧
        d2.getD 1 ⟨[], []⟩ =
          ⟨(tasks0.getD 1 ⟨[], []⟩).x ++ rd, (tasks0.getD 1 ⟨[], []⟩).y ++ rl⟩ ∧
        Rehearsal.add_task GaussianDistribution.add_class s1 (tasks0.getD 1 ⟨[], []⟩).x
          (tasks0.getD 1 ⟨[], []⟩).y 0 0 (fun _ => 0) = .ok s2 :=
  ⟨_, _, rfl, train_generates_before_register GaussRecord GaussianDistribution.add_class
    gen0 s00 tasks0 1 _ _ (fun st c cf => ⟨_, rfl⟩) rfl (by decide) (by decide) rfl⟩
